import Mathlib

/-!
Shallow embedding of the secure-collections Supabase edge functions
(collections-upsert, collections-toggle, collections-publish variants 1 and 2,
collections-resolve in its admin variant and its HMAC-gated Deno.serve
variant, and the combined config/render/resolve resolver).

Strings from the HTTP layer are modelled as Lean `String`s; the JavaScript
string operations the handlers use (toLowerCase, startsWith, slice, parseInt)
are modelled over `String.data` so that they evaluate on concrete inputs.
External collaborators (the crypto.subtle HMAC primitive, JSON.stringify on
the outbound payload, JSON.parse success on the CMS response text, btoa, the
Woo catalog lookup, the CMS delivery result, and the clock) are injected as
explicit arguments, exactly where the source awaits them.
-/

namespace SecureCollections

/-- JS `s.toLowerCase()` on the header strings the handlers compare
(ASCII range), as a list of code units. -/
def jsToLower (s : String) : List Char := s.data.map Char.toLower

/-- Longest leading run of decimal digits, used by the `parseInt` model. -/
def takeDigits : List Char → List Char
  | [] => []
  | c :: cs => if c.isDigit then c :: takeDigits cs else []

/-- Value of a digit run, most significant first. -/
def digitsToNat (ds : List Char) : Nat :=
  ds.foldl (fun acc c => acc * 10 + (c.toNat - 48)) 0

/-- JS `parseInt(s, 10)`: skip leading whitespace, take an optional sign and
the longest leading digit run; `none` models the NaN result when no digit is
found. -/
def parseIntJS (s : String) : Option Int :=
  let cs := s.data.dropWhile (fun c => c = ' ' || c = '\t' || c = '\n' || c = '\r')
  match cs with
  | '-' :: rest =>
      let ds := takeDigits rest
      if ds.isEmpty then none else some (-(digitsToNat ds : Int))
  | '+' :: rest =>
      let ds := takeDigits rest
      if ds.isEmpty then none else some ((digitsToNat ds : Int))
  | rest =>
      let ds := takeDigits rest
      if ds.isEmpty then none else some ((digitsToNat ds : Int))

/-- Collection status: created as draft by upsert, set to published by a
successful publish. -/
inductive Status where
  | draft
  | published
deriving DecidableEq, Repr

/-- One FAQ entry of a collection, `{ q, a }`. -/
structure Faq where
  q : String
  a : String
deriving DecidableEq, Repr

/-- One row of the `collections` table, keyed by (site_host, slug).
Nullable columns are `Option`s; `assigned_product_ids` and `version` are the
columns the upsert row does not list. -/
structure Collection where
  site_host : String
  slug : String
  title : Option String := none
  h1 : Option String := none
  meta_title : Option String := none
  meta_description : Option String := none
  canonical : Option String := none
  description_html : Option String := none
  faq : Option (List Faq) := none
  rules : Option String := none
  assigned_skus : Option (List String) := none
  assigned_product_ids : Option (List Nat) := none
  sort_by : Option String := none
  paginate : Option Nat := none
  version : Option Nat := none
  status : Status := .draft
  updated_at : String := ""
deriving DecidableEq, Repr

/-- One row of the `site_settings` table, keyed by site_host. -/
structure SiteSettings where
  site_host : String
  collections_enabled : Bool := true
  maintenance_message : Option String := none
  collections_base : Option String := none
  updated_at : String := ""
deriving DecidableEq, Repr

/-- Response body stored in a push_log row: either the JSON.parse of the CMS
response text, or the `{ text }` wrapper when parsing failed. -/
inductive LoggedBody where
  | parsed (raw : String)
  | textWrapped (raw : String)
deriving DecidableEq, Repr

/-- One row of the append-only `push_log` table. -/
structure PushLogEntry where
  slug : String
  version_pushed : Nat
  http_status : Nat
  response_body : LoggedBody
deriving DecidableEq, Repr

/-- The durable state the handlers read and write. -/
structure Store where
  collections : List Collection
  site_settings : List SiteSettings
  push_log : List PushLogEntry
deriving DecidableEq, Repr

/-- Load by key: `.eq("site_host", h).eq("slug", s).maybeSingle()`. -/
def findCol (st : Store) (host slug : String) : Option Collection :=
  st.collections.find? (fun c => c.site_host == host && c.slug == slug)

/-- Update by key: `.update(cols).eq("site_host", h).eq("slug", s)`. -/
def updateColWhere (st : Store) (host slug : String) (f : Collection → Collection) : Store :=
  { st with
    collections := st.collections.map
      (fun c => if c.site_host == host && c.slug == slug then f c else c) }

/-- Payload of the JSON object literals the handlers answer with. -/
inductive RespBody where
  | err (code : String)
  | health (fn : String)
  | publishOk (wpStatus : Nat)
  | wpFail (wpStatus : Nat) (wpBody : String)
  | resolveOk (count : Nat) (missing : List String) (ids : List Nat)
  | resolveCleared
  | upsertOk (data : Option Collection)
  | toggleOk (wpStatus : Nat)
deriving DecidableEq, Repr

/-- One HTTP response of a handler. -/
structure Resp where
  status : Nat
  body : RespBody
deriving DecidableEq, Repr

/-- 401 `{ ok:false, error:"unauthorized" }`. -/
def unauthorized : Resp := ⟨401, .err "unauthorized"⟩

/-- JS `hdr.toLowerCase().startsWith("bearer ") ? hdr.slice(7) : ""` applied
to `req.headers.get("authorization") || ""`. -/
def bearerToken (authHeader : Option String) : String :=
  let hdr := authHeader.getD ""
  if (jsToLower hdr).take 7 = "bearer ".data then ⟨hdr.data.drop 7⟩ else ""

/-- requireBearer as written in collections-upsert, the part_001 resolver and
publish variant 1: `if (!token || token !== SERVICE_ROLE_KEY)` reject 401. -/
def requireBearer (authHeader : Option String) (serviceKey : String) : Option Resp :=
  let token := bearerToken authHeader
  if token = "" ∨ token ≠ serviceKey then some unauthorized else none

/-- requireBearer as written in collections-toggle, publish variant 2 and the
combined resolver: `if (t !== KEY)` reject 401, with no empty-token guard. -/
def requireBearerLax (authHeader : Option String) (serviceKey : String) : Option Resp :=
  let t := bearerToken authHeader
  if t ≠ serviceKey then some unauthorized else none

/-- Authentication gate of the Deno.serve resolver
(src/supabase/functions/collections-resolve/index.ts): header presence, the
freshness window, then HMAC recomputation over `timestamp + "." + body`.
`hmac secret msg` stands for the hex HMAC-SHA-256 digest crypto.subtle
computes, `now` for `Math.floor(Date.now() / 1000)`. JS detail kept: when the
timestamp has no leading digits, `parseInt` yields NaN and
`Math.abs(now - NaN) > 300` is false, so the staleness branch is not taken. -/
def denoResolveGate (hmac : String → String → String) (secret : String)
    (timestamp signature : Option String) (body : String) (now : Int) : Option Resp :=
  match timestamp, signature with
  | some ts, some sig =>
      if ts = "" ∨ sig = "" then some ⟨401, .err "Missing authentication headers"⟩
      else
        let stale : Bool :=
          match parseIntJS ts with
          | none => false
          | some t => decide (300 < (now - t).natAbs)
        if stale then some ⟨401, .err "Request timestamp expired"⟩
        else if hmac secret (ts ++ "." ++ body) ≠ sig then
          some ⟨401, .err "Invalid signature"⟩
        else none
  | _, _ => some ⟨401, .err "Missing authentication headers"⟩

/-- verifyHmacFromHeaders of the combined resolver (part_000): secret
configured, both headers present, `parseInt` plus `Number.isFinite` and the
300-second window, then HMAC recomputation over `ts + "." + rawBody`. -/
def verifyHmacFromHeaders (hmac : String → String → String) (secret : String)
    (ts sig : Option String) (rawBody : String) (now : Int) : Option Resp :=
  if secret = "" then some ⟨500, .err "server_missing_hmac_secret"⟩
  else
    match ts, sig with
    | some t, some s =>
        if t = "" ∨ s = "" then some ⟨401, .err "missing_signature"⟩
        else
          match parseIntJS t with
          | none => some ⟨401, .err "stale_signature"⟩
          | some tn =>
              if 300 < (now - tn).natAbs then some ⟨401, .err "stale_signature"⟩
              else if hmac secret (t ++ "." ++ rawBody) ≠ s then
                some ⟨401, .err "bad_signature"⟩
              else none
    | _, _ => some ⟨401, .err "missing_signature"⟩

/-- Woo catalog product as the resolvers see it, `{ id, sku }`. -/
structure WooProduct where
  id : Nat
  sku : String
deriving DecidableEq, Repr

/-- The sequential SKU loop of the resolvers: per SKU, a truthy `prod?.id`
pushes the id onto foundIds, anything else pushes the SKU onto missing.
`lookup` stands for fetchWooBySku (non-success transport, a thrown error and
an empty result list all return null, modelled as `none`). -/
def resolveLoop (lookup : String → Option WooProduct) :
    List String → List Nat × List String
  | [] => ([], [])
  | sku :: rest =>
      let r := resolveLoop lookup rest
      match lookup sku with
      | some p => if p.id ≠ 0 then (p.id :: r.1, r.2) else (r.1, sku :: r.2)
      | none => (r.1, sku :: r.2)

/-- JS `x || d` on a nullable string column: null, undefined and `""` all
fall back to the default. -/
def orDefaultStr (x : Option String) (d : String) : String :=
  match x with
  | some s => if s = "" then d else s
  | none => d

/-- JS `x || d` on a nullable numeric column: null, undefined and `0` all
fall back to the default. -/
def orDefaultNat (x : Option Nat) (d : Nat) : Nat :=
  match x with
  | some n => if n = 0 then d else n
  | none => d

/-- The canonical outbound payload both publish variants build from the
loaded collection (step 2 of the handlers): the fixed field set, with
`product_ids = col.assigned_product_ids || []`, `sort_by || "popularity"`,
`paginate || 24` and `version || 1`. -/
structure Payload where
  slug : String
  site_host : String
  title : Option String
  h1 : Option String
  meta_title : Option String
  meta_description : Option String
  canonical : Option String
  description_html : Option String
  faq : Option (List Faq)
  product_ids : List Nat
  sort_by : String
  paginate : Nat
  version : Nat
  updated_at : String
deriving DecidableEq, Repr

/-- Step 2 of both publish handlers: build the payload from the collection. -/
def buildPayload (col : Collection) : Payload :=
  { slug := col.slug
    site_host := col.site_host
    title := col.title
    h1 := col.h1
    meta_title := col.meta_title
    meta_description := col.meta_description
    canonical := col.canonical
    description_html := col.description_html
    faq := col.faq
    product_ids := col.assigned_product_ids.getD []
    sort_by := orDefaultStr col.sort_by "popularity"
    paginate := orDefaultNat col.paginate 24
    version := orDefaultNat col.version 1
    updated_at := col.updated_at }

/-- One outbound HTTP request to the CMS: its headers and the exact body
string handed to fetch. -/
structure OutboundReq where
  headers : List (String × String)
  body : String
deriving DecidableEq, Repr

/-- The timestamped signed request construction shared by publish variant 2,
collections-toggle and collections-refresh-base: the body is transmitted
verbatim, `x-sc-timestamp` carries `ts` and `x-sc-signature` carries
`hmac secret (ts ++ "." ++ body)`. -/
def signedOutbound (hmac : String → String → String) (secret ts bodyStr : String) :
    OutboundReq :=
  { headers := [("content-type", "application/json"),
                ("x-sc-timestamp", ts),
                ("x-sc-signature", hmac secret (ts ++ "." ++ bodyStr))]
    body := bodyStr }

/-- Step 3 of publish variant 1 (part_000 lines 93-103): with an HMAC secret
configured, sign the body string alone and attach only `x-sc-signature`; with
basic-auth credentials, attach an `authorization: Basic` header; with
neither, fail 500. `btoa64` stands for btoa. -/
def prepareAuthV1 (hmac : String → String → String) (btoa64 : String → String)
    (hmacSecret appUser appPassword : String) (bodyStr : String) :
    Except Resp OutboundReq :=
  if hmacSecret ≠ "" then
    .ok { headers := [("content-type", "application/json"),
                      ("x-sc-signature", hmac hmacSecret bodyStr)]
          body := bodyStr }
  else if appUser ≠ "" ∧ appPassword ≠ "" then
    .ok { headers := [("content-type", "application/json"),
                      ("authorization", "Basic " ++ btoa64 (appUser ++ ":" ++ appPassword))]
          body := bodyStr }
  else .error ⟨500, .err "no_wp_auth_configured"⟩

/-- Headers of an outbound construction that may have failed; the error case
yields no headers. -/
def exceptHeaders : Except Resp OutboundReq → List (String × String)
  | .ok o => o.headers
  | .error _ => []

/-- Result of the CMS delivery call: remote status and raw response text. -/
structure WpDelivery where
  status : Nat
  text : String
deriving DecidableEq, Repr

/-- fetch `Response.ok`: status in the 2xx range. -/
def respOk (status : Nat) : Bool := 200 ≤ status && status < 300

/-- Best-effort decode of the CMS response text for the audit record:
`try { JSON.parse(text) } catch { { text } }`. `jsonOk` stands for whether
JSON.parse succeeds on the text. -/
def decodeLogBody (jsonOk : String → Bool) (text : String) : LoggedBody :=
  if jsonOk text then .parsed text else .textWrapped text

/-- The push_log row both publish variants insert (step 5): slug, pushed
version (`col.version ?? 1`, nullish coalescing so a stored 0 stays 0), the
remote status and the decoded response body. -/
def pushEntry (col : Collection) (jsonOk : String → Bool) (wp : WpDelivery) :
    PushLogEntry :=
  { slug := col.slug
    version_pushed := col.version.getD 1
    http_status := wp.status
    response_body := decodeLogBody jsonOk wp.text }

/-- Parsed body of a publish or admin-resolve request; a missing slug is the
empty string (`!input?.slug` is falsy exactly then). -/
structure PublishInput where
  slug : String
  site_host : Option String := none
deriving DecidableEq, Repr

/-- Environment of publish variant 2. -/
structure PublishEnv where
  serviceKey : String
  defaultSiteHost : String
  hmacSecret : String
deriving DecidableEq, Repr

/-- One invocation of publish variant 2 (part_000 lines 130-250): health
check on non-POST, lax bearer gate, JSON body (`none` = parse failure), slug
required, load by (site_host || default, slug), build and sign the payload
over `ts.body`, push, unconditionally insert the push_log row, then either
return 502 leaving the collection untouched or mark it published. Returns
the response, the store afterwards, and the outbound request when one was
sent. -/
def publishV2Handler (env : PublishEnv) (hmac : String → String → String)
    (stringify : Payload → String) (jsonOk : String → Bool)
    (wp : WpDelivery) (now : Nat) (nowIso : String)
    (method : String) (auth : Option String) (input : Option PublishInput)
    (st : Store) : Resp × Store × Option OutboundReq :=
  if method ≠ "POST" then (⟨200, .health "collections-publish"⟩, st, none)
  else
    match requireBearerLax auth env.serviceKey with
    | some r => (r, st, none)
    | none =>
        match input with
        | none => (⟨400, .err "invalid_json"⟩, st, none)
        | some inp =>
            if inp.slug = "" then (⟨400, .err "slug_required"⟩, st, none)
            else
              let host := orDefaultStr inp.site_host env.defaultSiteHost
              match findCol st host inp.slug with
              | none => (⟨404, .err "collection_not_found"⟩, st, none)
              | some col =>
                  let bodyStr := stringify (buildPayload col)
                  let ts := toString now
                  let out := signedOutbound hmac env.hmacSecret ts bodyStr
                  let st1 := { st with push_log := st.push_log ++ [pushEntry col jsonOk wp] }
                  if respOk wp.status then
                    (⟨200, .publishOk wp.status⟩,
                     updateColWhere st1 host inp.slug
                       (fun c => { c with status := .published, updated_at := nowIso }),
                     some out)
                  else
                    (⟨502, .wpFail wp.status wp.text⟩, st1, some out)

/-- Environment of publish variant 1 (HMAC secret optional, basic-auth
fallback). -/
structure PublishV1Env where
  serviceKey : String
  defaultSiteHost : String
  hmacSecret : String
  appUser : String
  appPassword : String
deriving DecidableEq, Repr

/-- One invocation of publish variant 1 (part_000 lines 1-129): as variant 2
but with the strict bearer gate and the prepareAuthV1 outbound construction,
which signs the body alone and attaches no timestamp header. -/
def publishV1Handler (env : PublishV1Env) (hmac : String → String → String)
    (btoa64 : String → String) (stringify : Payload → String)
    (jsonOk : String → Bool) (wp : WpDelivery) (nowIso : String)
    (method : String) (auth : Option String) (input : Option PublishInput)
    (st : Store) : Resp × Store × Option OutboundReq :=
  if method ≠ "POST" then (⟨200, .health "collections-publish"⟩, st, none)
  else
    match requireBearer auth env.serviceKey with
    | some r => (r, st, none)
    | none =>
        match input with
        | none => (⟨400, .err "invalid_json"⟩, st, none)
        | some inp =>
            if inp.slug = "" then (⟨400, .err "slug_required"⟩, st, none)
            else
              let host := orDefaultStr inp.site_host env.defaultSiteHost
              match findCol st host inp.slug with
              | none => (⟨404, .err "collection_not_found"⟩, st, none)
              | some col =>
                  let bodyStr := stringify (buildPayload col)
                  match prepareAuthV1 hmac btoa64 env.hmacSecret env.appUser env.appPassword bodyStr with
                  | .error r => (r, st, none)
                  | .ok out =>
                      let st1 := { st with push_log := st.push_log ++ [pushEntry col jsonOk wp] }
                      if respOk wp.status then
                        (⟨200, .publishOk wp.status⟩,
                         updateColWhere st1 host inp.slug
                           (fun c => { c with status := .published, updated_at := nowIso }),
                         some out)
                      else
                        (⟨502, .wpFail wp.status wp.text⟩, st1, some out)

/-- Environment of the part_001 admin resolver. -/
structure ResolveEnv where
  serviceKey : String
  defaultSiteHost : String
deriving DecidableEq, Repr

/-- One invocation of the admin resolver (part_001, and the resolve branch of
the combined resolver): health check on non-POST, strict bearer gate, JSON
body, slug required, load the collection; an empty SKU list clears the stored
identifier list and answers count 0 / missing []; otherwise run the SKU loop,
persist the found ids and answer counts, missing list and ids. -/
def resolveHandler (env : ResolveEnv) (lookup : String → Option WooProduct)
    (nowIso : String) (method : String) (auth : Option String)
    (input : Option PublishInput) (st : Store) : Resp × Store :=
  if method ≠ "POST" then (⟨200, .health "collections-resolve"⟩, st)
  else
    match requireBearer auth env.serviceKey with
    | some r => (r, st)
    | none =>
        match input with
        | none => (⟨400, .err "invalid_json"⟩, st)
        | some inp =>
            if inp.slug = "" then (⟨400, .err "slug_required"⟩, st)
            else
              let host := orDefaultStr inp.site_host env.defaultSiteHost
              match findCol st host inp.slug with
              | none => (⟨404, .err "collection_not_found"⟩, st)
              | some col =>
                  let skus := col.assigned_skus.getD []
                  if skus.isEmpty then
                    (⟨200, .resolveCleared⟩,
                     updateColWhere st host inp.slug
                       (fun c => { c with assigned_product_ids := some [], updated_at := nowIso }))
                  else
                    let r := resolveLoop lookup skus
                    (⟨200, .resolveOk r.1.length r.2 r.1⟩,
                     updateColWhere st host inp.slug
                       (fun c => { c with assigned_product_ids := some r.1, updated_at := nowIso }))

/-- Parsed body of an upsert request; absent optional fields are `none`
(`?? null` keeps them null in the row). -/
structure UpsertBody where
  slug : String
  site_host : Option String := none
  title : Option String := none
  h1 : Option String := none
  meta_title : Option String := none
  meta_description : Option String := none
  canonical : Option String := none
  description_html : Option String := none
  faq : Option (List Faq) := none
  rules : Option String := none
  assigned_skus : Option (List String) := none
  sort_by : Option String := none
  paginate : Option Nat := none
deriving DecidableEq, Repr

/-- The row collections-upsert writes (its `row` literal): every listed
column including `status: "draft"` and a fresh updated_at; `version` and
`assigned_product_ids` are not listed. -/
structure UpsertRow where
  site_host : String
  slug : String
  title : Option String
  h1 : Option String
  meta_title : Option String
  meta_description : Option String
  canonical : Option String
  description_html : Option String
  faq : Option (List Faq)
  rules : Option String
  assigned_skus : Option (List String)
  sort_by : String
  paginate : Nat
  status : Status
  updated_at : String
deriving DecidableEq, Repr

/-- Build the upsert row from the request body (`?? null` on the nullable
columns, `?? "popularity"` and `?? 24` on sort_by and paginate, status always
draft). -/
def buildUpsertRow (b : UpsertBody) (host nowIso : String) : UpsertRow :=
  { site_host := host
    slug := b.slug
    title := b.title
    h1 := b.h1
    meta_title := b.meta_title
    meta_description := b.meta_description
    canonical := b.canonical
    description_html := b.description_html
    faq := b.faq
    rules := b.rules
    assigned_skus := b.assigned_skus
    sort_by := b.sort_by.getD "popularity"
    paginate := b.paginate.getD 24
    status := .draft
    updated_at := nowIso }

/-- Write the row columns into an existing collection (the conflict case of
the upsert): columns absent from the row, `version` and
`assigned_product_ids`, keep their stored values. -/
def writeRow (c : Collection) (row : UpsertRow) : Collection :=
  { c with
    title := row.title
    h1 := row.h1
    meta_title := row.meta_title
    meta_description := row.meta_description
    canonical := row.canonical
    description_html := row.description_html
    faq := row.faq
    rules := row.rules
    assigned_skus := row.assigned_skus
    sort_by := some row.sort_by
    paginate := some row.paginate
    status := row.status
    updated_at := row.updated_at }

/-- A fresh collection from the row (the insert case): the unlisted columns
take their defaults. -/
def rowToCollection (row : UpsertRow) : Collection :=
  { site_host := row.site_host
    slug := row.slug
    title := row.title
    h1 := row.h1
    meta_title := row.meta_title
    meta_description := row.meta_description
    canonical := row.canonical
    description_html := row.description_html
    faq := row.faq
    rules := row.rules
    assigned_skus := row.assigned_skus
    sort_by := some row.sort_by
    paginate := some row.paginate
    status := row.status
    updated_at := row.updated_at }

/-- Postgres `upsert(row, { onConflict: "site_host,slug" })`: rows matching
the key are overwritten with the row columns, otherwise the row is
inserted. -/
def applyUpsert (st : Store) (row : UpsertRow) : Store :=
  if st.collections.any (fun c => c.site_host == row.site_host && c.slug == row.slug) then
    { st with
      collections := st.collections.map
        (fun c => if c.site_host == row.site_host && c.slug == row.slug then writeRow c row else c) }
  else
    { st with collections := st.collections ++ [rowToCollection row] }

/-- Environment of collections-upsert. -/
structure UpsertEnv where
  serviceKey : String
  defaultSiteHost : String
deriving DecidableEq, Repr

/-- One invocation of collections-upsert: health check on non-POST, strict
bearer gate, JSON body, slug required, then the draft-status upsert; the
response carries the stored record read back by key. -/
def upsertHandler (env : UpsertEnv) (nowIso : String) (method : String)
    (auth : Option String) (input : Option UpsertBody) (st : Store) :
    Resp × Store :=
  if method ≠ "POST" then (⟨200, .health "collections-upsert"⟩, st)
  else
    match requireBearer auth env.serviceKey with
    | some r => (r, st)
    | none =>
        match input with
        | none => (⟨400, .err "invalid_json"⟩, st)
        | some b =>
            if b.slug = "" then (⟨400, .err "slug_required"⟩, st)
            else
              let host := orDefaultStr b.site_host env.defaultSiteHost
              let st1 := applyUpsert st (buildUpsertRow b host nowIso)
              (⟨200, .upsertOk (findCol st1 host b.slug)⟩, st1)

/-- Parsed body of a toggle request; `enabled` is `none` when the field is
not a boolean (`typeof body.enabled !== "boolean"`). -/
structure ToggleBody where
  enabled : Option Bool
  site_host : Option String := none
deriving DecidableEq, Repr

/-- Environment of collections-toggle. -/
structure ToggleEnv where
  serviceKey : String
  defaultSiteHost : String
  hmacSecret : String
deriving DecidableEq, Repr

/-- One invocation of collections-toggle: health check on non-POST, lax
bearer gate, JSON body with a boolean `enabled`, update site_settings first,
then mirror to the CMS with a timestamped signed request; a non-success
mirror answers 502 with the settings already updated. `stringifyT en host`
stands for JSON.stringify of the `{ enabled, site_host }` payload. -/
def toggleHandler (env : ToggleEnv) (hmac : String → String → String)
    (stringifyT : Bool → String → String) (wp : WpDelivery) (now : Nat)
    (nowIso : String) (method : String) (auth : Option String)
    (input : Option ToggleBody) (st : Store) :
    Resp × Store × Option OutboundReq :=
  if method ≠ "POST" then (⟨200, .health "collections-toggle"⟩, st, none)
  else
    match requireBearerLax auth env.serviceKey with
    | some r => (r, st, none)
    | none =>
        match input with
        | none => (⟨400, .err "invalid_json"⟩, st, none)
        | some b =>
            match b.enabled with
            | none => (⟨400, .err "enabled_boolean_required"⟩, st, none)
            | some en =>
                let host := orDefaultStr b.site_host env.defaultSiteHost
                let st1 := { st with
                  site_settings := st.site_settings.map
                    (fun s => if s.site_host == host then
                        { s with collections_enabled := en, updated_at := nowIso }
                      else s) }
                let out := signedOutbound hmac env.hmacSecret (toString now) (stringifyT en host)
                if respOk wp.status then (⟨200, .toggleOk wp.status⟩, st1, some out)
                else (⟨502, .wpFail wp.status wp.text⟩, st1, some out)

end SecureCollections

namespace SecureCollections

/-! ## Helper lemmas shared by the claim theorems -/

/-- The SKU loop settles every input SKU exactly once. -/
theorem resolveLoop_length (lookup : String → Option WooProduct) (skus : List String) :
    (resolveLoop lookup skus).1.length + (resolveLoop lookup skus).2.length = skus.length := by
  induction skus with
  | nil => rfl
  | cons sku rest ih =>
      simp only [resolveLoop]
      cases h : lookup sku with
      | none => simpa using by omega
      | some p =>
          by_cases hid : p.id ≠ 0 <;> simp [hid] <;> omega

end SecureCollections

namespace SecureCollections

/-! ## Claim theorems -/

/-- C1: evaluation of the code at the failing input. A timestamp header with
no leading digit (here "oops") makes `parseInt` yield NaN in the Deno.serve
resolver, `Math.abs(now - NaN) > 300` is false, so the gate does not reject
the request as stale and falls through to the signature recomputation (the
answer is the signature 401, not the staleness 401); verifyHmacFromHeaders of
the combined resolver rejects the same request as stale before any signature
work, as the claim demands. -/
theorem nan_timestamp_reaches_signature_check :
    denoResolveGate (fun s m => "mac[" ++ s ++ "|" ++ m ++ "]") "sek"
        (some "oops") (some "zz") "b" 1700000000
      = some ⟨401, .err "Invalid signature"⟩
    ∧ verifyHmacFromHeaders (fun s m => "mac[" ++ s ++ "|" ++ m ++ "]") "sek"
        (some "oops") (some "zz") "b" 1700000000
      = some ⟨401, .err "stale_signature"⟩ := by
  exact ⟨rfl, rfl⟩

/-- C2: evaluation of the code at the failing input. With the HMAC secret
unconfigured (the Deno.serve resolver reads `WP_HMAC_SECRET || ''`), a fresh
request signed with the empty-string key is accepted by that gate, and the
lax bearer variant (toggle, publish variant 2, combined resolver) accepts a
request with no Authorization header when the configured key is the empty
string; verifyHmacFromHeaders of the combined resolver and the strict bearer
variant fail closed as the claim demands. -/
theorem unconfigured_secret_fails_open :
    denoResolveGate (fun s m => "mac[" ++ s ++ "|" ++ m ++ "]") ""
        (some "1000") (some "mac[|1000.b]") "b" 1000 = none
    ∧ requireBearerLax none "" = none
    ∧ verifyHmacFromHeaders (fun s m => "mac[" ++ s ++ "|" ++ m ++ "]") ""
        (some "1000") (some "x") "b" 1000
      = some ⟨500, .err "server_missing_hmac_secret"⟩
    ∧ requireBearer none "" = some unauthorized := by
  exact ⟨rfl, rfl, rfl, rfl⟩

/-- C4 counterexample: publish variant 1 with an HMAC secret configured
attaches no `x-sc-timestamp` header at all, and its `x-sc-signature` is the
HMAC over the body alone, not over `"<timestamp>.<body>"`. -/
theorem publishV1_sends_no_timestamp :
    (exceptHeaders (prepareAuthV1 (fun s m => "mac[" ++ s ++ "|" ++ m ++ "]")
        (fun s => s) "sek" "" "" "body1")).lookup "x-sc-timestamp" = none
    ∧ (exceptHeaders (prepareAuthV1 (fun s m => "mac[" ++ s ++ "|" ++ m ++ "]")
        (fun s => s) "sek" "" "" "body1")).lookup "x-sc-signature"
      = some "mac[sek|body1]" := by
  exact ⟨rfl, rfl⟩

/-- C4 (amended): the timestamped signed construction used by publish
variant 2, collections-toggle and collections-refresh-base carries the
decimal Unix-seconds timestamp in `x-sc-timestamp`, a signature over the
concatenation `"<timestamp>.<body>"` in `x-sc-signature`, and transmits
exactly the body bytes that were signed. -/
theorem signedOutbound_binds_timestamp :
    ∀ (hmac : String → String → String) (secret : String) (now : Nat) (bodyStr : String),
      (signedOutbound hmac secret (toString now) bodyStr).headers.lookup "x-sc-timestamp"
          = some (toString now)
      ∧ (signedOutbound hmac secret (toString now) bodyStr).headers.lookup "x-sc-signature"
          = some (hmac secret (toString now ++ "." ++ bodyStr))
      ∧ (signedOutbound hmac secret (toString now) bodyStr).body = bodyStr := by
  intro hmac secret now bodyStr
  exact ⟨rfl, rfl, rfl⟩

/-- C7 counterexample: a differently-cased scheme keyword with the correct
token is accepted by requireBearer, not rejected, because the header is
lowercased before the scheme comparison. -/
theorem cased_scheme_token_accepted :
    requireBearer (some "BEARER sek-9") "sek-9" = none := by
  decide

/-- C7 (amended): the bearer gates accept exactly the requests whose header,
after the case-insensitive `"bearer "` scheme test, yields a token equal
byte-for-byte to the pre-shared key (nonempty as well, in the strict
variant); an absent header or a header whose first seven characters do not
lowercase to `"bearer "` is rejected as unauthorized. -/
theorem bearer_gate_exact_token_case_insensitive :
    ∀ (auth : Option String) (key : String) (hdr : String),
      (requireBearer auth key = none ↔ bearerToken auth ≠ "" ∧ bearerToken auth = key)
      ∧ (requireBearerLax auth key = none ↔ bearerToken auth = key)
      ∧ requireBearer none key = some unauthorized
      ∧ ((jsToLower hdr).take 7 ≠ "bearer ".data →
          requireBearer (some hdr) key = some unauthorized) := by
  intro auth key hdr
  refine ⟨?_, ?_, ?_, ?_⟩
  · by_cases h1 : bearerToken auth = "" <;> by_cases h2 : bearerToken auth = key <;>
      simp [requireBearer, h1, h2]
  · by_cases h2 : bearerToken auth = key <;> simp [requireBearerLax, h2]
  · rfl
  · intro h
    simp [requireBearer, bearerToken, if_neg h]

end SecureCollections

namespace SecureCollections

/-- C6: totality of resolveAll. The SKU loop settles every input SKU exactly
once, so found ids plus missing SKUs number exactly N (duplicates included),
and a request reaching a collection whose SKU list is empty clears the stored
identifier list and answers count 0 with an empty missing list. -/
theorem resolveAll_total :
    (∀ (lookup : String → Option WooProduct) (skus : List String),
      (resolveLoop lookup skus).1.length + (resolveLoop lookup skus).2.length = skus.length)
    ∧ (∀ (env : ResolveEnv) (lookup : String → Option WooProduct)
        (nowIso : String) (auth : Option String) (inp : PublishInput)
        (st : Store) (col : Collection),
      requireBearer auth env.serviceKey = none →
      inp.slug ≠ "" →
      findCol st (orDefaultStr inp.site_host env.defaultSiteHost) inp.slug = some col →
      col.assigned_skus.getD [] = [] →
      resolveHandler env lookup nowIso "POST" auth (some inp) st
        = (⟨200, .resolveCleared⟩,
           updateColWhere st (orDefaultStr inp.site_host env.defaultSiteHost) inp.slug
             (fun c => { c with assigned_product_ids := some [], updated_at := nowIso }))) := by
  constructor
  · exact resolveLoop_length
  · intro env lookup nowIso auth inp st col h1 h2 h3 h4
    simp [resolveHandler, h1, h2, h3, h4]

/-- C6 witness: the concrete SKU list ["SUN123", "SUN456", "SUN123"] with a
catalog that knows only SUN123 resolves to one outcome per input SKU, and a
concrete collection with no SKUs is cleared. -/
theorem resolveAll_total_witness :
    (resolveLoop (fun sku => if sku = "SUN123" then some ⟨501, "SUN123"⟩ else none)
        ["SUN123", "SUN456", "SUN123"]).1.length
      + (resolveLoop (fun sku => if sku = "SUN123" then some ⟨501, "SUN123"⟩ else none)
        ["SUN123", "SUN456", "SUN123"]).2.length = 3
    ∧ resolveHandler ⟨"k", "h"⟩ (fun _ => none) "t1" "POST" (some "Bearer k")
        (some { slug := "s" })
        ⟨[{ site_host := "h", slug := "s", assigned_product_ids := some [7] }], [], []⟩
      = (⟨200, .resolveCleared⟩,
         updateColWhere ⟨[{ site_host := "h", slug := "s", assigned_product_ids := some [7] }], [], []⟩
           "h" "s" (fun c => { c with assigned_product_ids := some [], updated_at := "t1" })) := by
  constructor
  · exact resolveAll_total.1 _ _
  · exact resolveAll_total.2 ⟨"k", "h"⟩ (fun _ => none) "t1" (some "Bearer k")
      { slug := "s" }
      ⟨[{ site_host := "h", slug := "s", assigned_product_ids := some [7] }], [], []⟩
      { site_host := "h", slug := "s", assigned_product_ids := some [7] }
      (by decide) (by decide) (by decide) (by decide)

/-- C10: a request whose method is not POST makes each administrative
handler answer 200 with its health-check body, with the store unchanged and
no outbound call, independently of every credential and input. -/
theorem non_post_health_check :
    ∀ (method : String), method ≠ "POST" →
      (∀ (env : UpsertEnv) (nowIso : String) (auth : Option String)
          (input : Option UpsertBody) (st : Store),
        upsertHandler env nowIso method auth input st
          = (⟨200, .health "collections-upsert"⟩, st))
      ∧ (∀ (env : ToggleEnv) (hmac : String → String → String)
          (stringifyT : Bool → String → String) (wp : WpDelivery) (now : Nat)
          (nowIso : String) (auth : Option String) (input : Option ToggleBody)
          (st : Store),
        toggleHandler env hmac stringifyT wp now nowIso method auth input st
          = (⟨200, .health "collections-toggle"⟩, st, none))
      ∧ (∀ (env : PublishV1Env) (hmac : String → String → String)
          (btoa64 : String → String) (stringify : Payload → String)
          (jsonOk : String → Bool) (wp : WpDelivery) (nowIso : String)
          (auth : Option String) (input : Option PublishInput) (st : Store),
        publishV1Handler env hmac btoa64 stringify jsonOk wp nowIso method auth input st
          = (⟨200, .health "collections-publish"⟩, st, none))
      ∧ (∀ (env : ResolveEnv) (lookup : String → Option WooProduct)
          (nowIso : String) (auth : Option String) (input : Option PublishInput)
          (st : Store),
        resolveHandler env lookup nowIso method auth input st
          = (⟨200, .health "collections-resolve"⟩, st)) := by
  intro method h
  refine ⟨?_, ?_, ?_, ?_⟩ <;> intros <;>
    simp [upsertHandler, toggleHandler, publishV1Handler, resolveHandler, if_pos h]

/-- C10 witness: a concrete GET request against each handler, with a stored
collection and credentials present, answers the health body and leaves the
store untouched. -/
theorem non_post_health_check_witness :
    upsertHandler ⟨"k", "h"⟩ "t" "GET" (some "Bearer k") none
        ⟨[{ site_host := "h", slug := "s" }], [], []⟩
      = (⟨200, .health "collections-upsert"⟩,
         ⟨[{ site_host := "h", slug := "s" }], [], []⟩)
    ∧ resolveHandler ⟨"k", "h"⟩ (fun _ => none) "t" "GET" none none ⟨[], [], []⟩
      = (⟨200, .health "collections-resolve"⟩, ⟨[], [], []⟩) :=
  ⟨(non_post_health_check "GET" (by decide)).1 ⟨"k", "h"⟩ "t" (some "Bearer k") none
      ⟨[{ site_host := "h", slug := "s" }], [], []⟩,
   (non_post_health_check "GET" (by decide)).2.2.2 ⟨"k", "h"⟩ (fun _ => none) "t" none none
      ⟨[], [], []⟩⟩

end SecureCollections

namespace SecureCollections

/-- C5: a publish invocation that reaches the delivery step and gets a
non-success transport status answers 502 with the remote status and body,
appends the audit row, and leaves the collections table exactly as it was
(neither status nor updated_at move), for both publish variants; the update
to published is reached only on a successful delivery. -/
theorem publish_failure_preserves_collections :
    (∀ (env : PublishEnv) (hmac : String → String → String)
        (stringify : Payload → String) (jsonOk : String → Bool)
        (wp : WpDelivery) (now : Nat) (nowIso : String) (auth : Option String)
        (inp : PublishInput) (st : Store) (col : Collection),
      requireBearerLax auth env.serviceKey = none →
      inp.slug ≠ "" →
      findCol st (orDefaultStr inp.site_host env.defaultSiteHost) inp.slug = some col →
      respOk wp.status = false →
      publishV2Handler env hmac stringify jsonOk wp now nowIso "POST" auth (some inp) st
        = (⟨502, .wpFail wp.status wp.text⟩,
           { st with push_log := st.push_log ++ [pushEntry col jsonOk wp] },
           some (signedOutbound hmac env.hmacSecret (toString now)
             (stringify (buildPayload col)))))
    ∧ (∀ (env : PublishV1Env) (hmac : String → String → String)
        (btoa64 : String → String) (stringify : Payload → String)
        (jsonOk : String → Bool) (wp : WpDelivery) (nowIso : String)
        (auth : Option String) (inp : PublishInput) (st : Store)
        (col : Collection) (out : OutboundReq),
      requireBearer auth env.serviceKey = none →
      inp.slug ≠ "" →
      findCol st (orDefaultStr inp.site_host env.defaultSiteHost) inp.slug = some col →
      prepareAuthV1 hmac btoa64 env.hmacSecret env.appUser env.appPassword
        (stringify (buildPayload col)) = .ok out →
      respOk wp.status = false →
      publishV1Handler env hmac btoa64 stringify jsonOk wp nowIso "POST" auth (some inp) st
        = (⟨502, .wpFail wp.status wp.text⟩,
           { st with push_log := st.push_log ++ [pushEntry col jsonOk wp] },
           some out)) := by
  constructor
  · intro env hmac stringify jsonOk wp now nowIso auth inp st col h1 h2 h3 h4
    simp [publishV2Handler, h1, h2, h3, h4]
  · intro env hmac btoa64 stringify jsonOk wp nowIso auth inp st col out h1 h2 h3 hp h4
    simp [publishV1Handler, h1, h2, h3, hp, h4]

/-- C5 witness: a concrete publish of a stored draft collection against a
CMS answering 503 returns 502 and leaves the collections table unchanged,
with exactly the audit row appended. -/
theorem publish_failure_witness :
    publishV2Handler ⟨"k", "h", "sec"⟩ (fun s m => s ++ "/" ++ m) (fun _ => "B")
        (fun _ => false) ⟨503, "oops"⟩ 9 "t1" "POST" (some "Bearer k")
        (some { slug := "s" })
        ⟨[{ site_host := "h", slug := "s", version := some 2, updated_at := "t0" }], [], []⟩
      = (⟨502, .wpFail 503 "oops"⟩,
         { collections := [{ site_host := "h", slug := "s", version := some 2, updated_at := "t0" }],
           site_settings := [],
           push_log := [pushEntry { site_host := "h", slug := "s", version := some 2, updated_at := "t0" }
             (fun _ => false) ⟨503, "oops"⟩] },
         some (signedOutbound (fun s m => s ++ "/" ++ m) "sec" "9" "B")) :=
  publish_failure_preserves_collections.1 ⟨"k", "h", "sec"⟩ (fun s m => s ++ "/" ++ m)
    (fun _ => "B") (fun _ => false) ⟨503, "oops"⟩ 9 "t1" (some "Bearer k")
    { slug := "s" }
    ⟨[{ site_host := "h", slug := "s", version := some 2, updated_at := "t0" }], [], []⟩
    { site_host := "h", slug := "s", version := some 2, updated_at := "t0" }
    (by decide) (by decide) (by decide) (by decide)

/-- C8: every publish invocation that reaches the delivery step appends
exactly one push_log row, carrying the slug, the pushed version
(`col.version ?? 1`), the remote status and the best-effort decoded response
body, whatever the delivery outcome, in both publish variants. -/
theorem publish_always_logs_attempt :
    (∀ (env : PublishEnv) (hmac : String → String → String)
        (stringify : Payload → String) (jsonOk : String → Bool)
        (wp : WpDelivery) (now : Nat) (nowIso : String) (auth : Option String)
        (inp : PublishInput) (st : Store) (col : Collection),
      requireBearerLax auth env.serviceKey = none →
      inp.slug ≠ "" →
      findCol st (orDefaultStr inp.site_host env.defaultSiteHost) inp.slug = some col →
      (publishV2Handler env hmac stringify jsonOk wp now nowIso "POST" auth (some inp) st).2.1.push_log
        = st.push_log ++ [pushEntry col jsonOk wp])
    ∧ (∀ (env : PublishV1Env) (hmac : String → String → String)
        (btoa64 : String → String) (stringify : Payload → String)
        (jsonOk : String → Bool) (wp : WpDelivery) (nowIso : String)
        (auth : Option String) (inp : PublishInput) (st : Store)
        (col : Collection) (out : OutboundReq),
      requireBearer auth env.serviceKey = none →
      inp.slug ≠ "" →
      findCol st (orDefaultStr inp.site_host env.defaultSiteHost) inp.slug = some col →
      prepareAuthV1 hmac btoa64 env.hmacSecret env.appUser env.appPassword
        (stringify (buildPayload col)) = .ok out →
      (publishV1Handler env hmac btoa64 stringify jsonOk wp nowIso "POST" auth (some inp) st).2.1.push_log
        = st.push_log ++ [pushEntry col jsonOk wp]) := by
  constructor
  · intro env hmac stringify jsonOk wp now nowIso auth inp st col h1 h2 h3
    by_cases h4 : respOk wp.status <;>
      simp [publishV2Handler, h1, h2, h3, h4, updateColWhere]
  · intro env hmac btoa64 stringify jsonOk wp nowIso auth inp st col out h1 h2 h3 hp
    by_cases h4 : respOk wp.status <;>
      simp [publishV1Handler, h1, h2, h3, hp, h4, updateColWhere]

/-- C8 witness: a concrete publish whose delivery succeeds with a
JSON-decodable body appends exactly one audit row recording status 200 and
the parsed body. -/
theorem publish_always_logs_attempt_witness :
    (publishV2Handler ⟨"k", "h", "sec"⟩ (fun s m => s ++ "/" ++ m) (fun _ => "B")
        (fun _ => true) ⟨200, "ok-json"⟩ 9 "t1" "POST" (some "Bearer k")
        (some { slug := "s" })
        ⟨[{ site_host := "h", slug := "s", updated_at := "t0" }], [], []⟩).2.1.push_log
      = [pushEntry { site_host := "h", slug := "s", updated_at := "t0" } (fun _ => true) ⟨200, "ok-json"⟩] :=
  publish_always_logs_attempt.1 ⟨"k", "h", "sec"⟩ (fun s m => s ++ "/" ++ m)
    (fun _ => "B") (fun _ => true) ⟨200, "ok-json"⟩ 9 "t1" (some "Bearer k")
    { slug := "s" }
    ⟨[{ site_host := "h", slug := "s", updated_at := "t0" }], [], []⟩
    { site_host := "h", slug := "s", updated_at := "t0" }
    (by decide) (by decide) (by decide)

end SecureCollections

namespace SecureCollections

/-- Allowed status movement of the state machine: stay, or advance to
published. -/
def statusAdvance (a b : Status) : Prop := b = a ∨ b = Status.published

/-- Keyed updates whose update function keeps the status leave the status
column of every row unchanged. -/
theorem map_status_update_eq (l : List Collection) (p : Collection → Bool)
    (f : Collection → Collection) (hf : ∀ c, (f c).status = c.status) :
    ((l.map (fun c => if p c then f c else c)).map Collection.status)
      = l.map Collection.status := by
  induction l with
  | nil => rfl
  | cons c l ih =>
      simp only [List.map_cons, ih]
      by_cases h : p c <;> simp [h, hf]

/-- Keyed updates whose update function only advances the status advance the
status column of every row. -/
theorem forall2_status_update (l : List Collection) (p : Collection → Bool)
    (f : Collection → Collection)
    (hf : ∀ c, statusAdvance c.status (f c).status) :
    List.Forall₂ statusAdvance (l.map Collection.status)
      ((l.map (fun c => if p c then f c else c)).map Collection.status) := by
  induction l with
  | nil => exact .nil
  | cons c l ih =>
      refine List.Forall₂.cons ?_ ih
      by_cases h : p c
      · simpa [h] using hf c
      · simp [h, statusAdvance]

/-- In the conflict case the upsert rewrites the keyed row, so the row read
back by key carries the status the row literal wrote. -/
theorem find?_overwrite_status (row : UpsertRow) (l : List Collection)
    (h : l.any (fun c => c.site_host == row.site_host && c.slug == row.slug) = true) :
    ((l.map (fun c => if c.site_host == row.site_host && c.slug == row.slug then
        writeRow c row else c)).find?
      (fun c => c.site_host == row.site_host && c.slug == row.slug)).map Collection.status
      = some row.status := by
  induction l with
  | nil => simp at h
  | cons c l ih =>
      simp only [List.map_cons]
      by_cases hc : (c.site_host == row.site_host && c.slug == row.slug) = true
      · have hw : ((writeRow c row).site_host == row.site_host
            && (writeRow c row).slug == row.slug) = true := hc
        rw [if_pos hc]
        simp only [List.find?_cons, hw]
        rfl
      · have hl : l.any (fun c => c.site_host == row.site_host && c.slug == row.slug) = true := by
          simpa [List.any_cons, hc] using h
        have hw : (c.site_host == row.site_host && c.slug == row.slug) = false := by
          simpa using hc
        rw [if_neg hc]
        simp only [List.find?_cons, hw]
        exact ih hl

/-- In the insert case the upsert appends the row, so the row read back by
key carries the status the row literal wrote. -/
theorem find?_insert_status (row : UpsertRow) (l : List Collection)
    (h : l.any (fun c => c.site_host == row.site_host && c.slug == row.slug) = false) :
    (((l ++ [rowToCollection row]).find?
      (fun c => c.site_host == row.site_host && c.slug == row.slug)).map Collection.status)
      = some row.status := by
  rw [List.find?_append]
  have hnone : l.find? (fun c => c.site_host == row.site_host && c.slug == row.slug) = none := by
    rw [List.find?_eq_none]
    intro a ha
    have := (List.any_eq_false).mp h a ha
    simpa using this
  simp [hnone, rowToCollection]

/-- The row the upsert wrote, read back by key, carries the status of the
upsert row, in both the conflict and the insert case. -/
theorem findCol_applyUpsert_status (st : Store) (row : UpsertRow) :
    (findCol (applyUpsert st row) row.site_host row.slug).map Collection.status
      = some row.status := by
  unfold applyUpsert findCol
  by_cases h : st.collections.any
      (fun c => c.site_host == row.site_host && c.slug == row.slug) = true
  · simp only [h, if_true]
    exact find?_overwrite_status row st.collections h
  · have h2 : st.collections.any
        (fun c => c.site_host == row.site_host && c.slug == row.slug) = false := by
      simpa using h
    simp only [h2, Bool.false_eq_true, if_false]
    exact find?_insert_status row st.collections h2

end SecureCollections

namespace SecureCollections

/-- C9 counterexample: an administrative upsert of a collection whose stored
status is published rewrites the row with status draft, so the subsystem
does move a collection from published back to draft. -/
theorem upsert_reverts_published_to_draft :
    (findCol (upsertHandler ⟨"k", "h"⟩ "t1" "POST" (some "Bearer k")
        (some { slug := "s" })
        ⟨[{ site_host := "h", slug := "s", status := Status.published,
            version := some 3, updated_at := "t0" }], [], []⟩).2 "h" "s").map
      Collection.status = some Status.draft := by
  decide

/-- C9 (amended): resolve leaves the status column of every collection
unchanged and toggle never touches the collections table; the publish
handlers only ever keep a status or advance it to published; but the
administrative upsert always writes the keyed row back with status draft,
so an upsert of a published collection reverts it to draft. -/
theorem status_reverts_only_through_upsert :
    (∀ (env : ResolveEnv) (lookup : String → Option WooProduct) (nowIso : String)
        (method : String) (auth : Option String) (input : Option PublishInput)
        (st : Store),
      ((resolveHandler env lookup nowIso method auth input st).2).collections.map
          Collection.status
        = st.collections.map Collection.status)
    ∧ (∀ (env : ToggleEnv) (hmac : String → String → String)
        (stringifyT : Bool → String → String) (wp : WpDelivery) (now : Nat)
        (nowIso : String) (method : String) (auth : Option String)
        (input : Option ToggleBody) (st : Store),
      ((toggleHandler env hmac stringifyT wp now nowIso method auth input st).2.1).collections
        = st.collections)
    ∧ (∀ (env : PublishEnv) (hmac : String → String → String)
        (stringify : Payload → String) (jsonOk : String → Bool) (wp : WpDelivery)
        (now : Nat) (nowIso : String) (method : String) (auth : Option String)
        (input : Option PublishInput) (st : Store),
      List.Forall₂ statusAdvance (st.collections.map Collection.status)
        (((publishV2Handler env hmac stringify jsonOk wp now nowIso method auth input st).2.1).collections.map
          Collection.status))
    ∧ (∀ (env : PublishV1Env) (hmac : String → String → String)
        (btoa64 : String → String) (stringify : Payload → String)
        (jsonOk : String → Bool) (wp : WpDelivery) (nowIso : String)
        (method : String) (auth : Option String) (input : Option PublishInput)
        (st : Store),
      List.Forall₂ statusAdvance (st.collections.map Collection.status)
        (((publishV1Handler env hmac btoa64 stringify jsonOk wp nowIso method auth input st).2.1).collections.map
          Collection.status))
    ∧ (∀ (st : Store) (b : UpsertBody) (host nowIso : String),
      (findCol (applyUpsert st (buildUpsertRow b host nowIso)) host b.slug).map
          Collection.status
        = some Status.draft) := by
  have hrefl : ∀ (l : List Status), List.Forall₂ statusAdvance l l :=
    fun l => List.forall₂_same.mpr (fun x _ => Or.inl rfl)
  refine ⟨?_, ?_, ?_, ?_, ?_⟩
  · intro env lookup nowIso method auth input st
    unfold resolveHandler
    dsimp only
    repeat' split
    all_goals try rfl
    all_goals (simp only [updateColWhere]; refine map_status_update_eq _ _ _ ?_; intro c; rfl)
  · intro env hmac stringifyT wp now nowIso method auth input st
    unfold toggleHandler
    dsimp only
    repeat' split
    all_goals rfl
  · intro env hmac stringify jsonOk wp now nowIso method auth input st
    unfold publishV2Handler
    dsimp only
    repeat' split
    all_goals try exact hrefl _
    all_goals (simp only [updateColWhere]; refine forall2_status_update _ _ _ ?_; intro c; exact Or.inr rfl)
  · intro env hmac btoa64 stringify jsonOk wp nowIso method auth input st
    unfold publishV1Handler
    dsimp only
    repeat' split
    all_goals try exact hrefl _
    all_goals (simp only [updateColWhere]; refine forall2_status_update _ _ _ ?_; intro c; exact Or.inr rfl)
  · intro st b host nowIso
    exact findCol_applyUpsert_status st (buildUpsertRow b host nowIso)

end SecureCollections
